import Mathlib

/-!
Verification of the terrain point-cloud engine of the `tmcad` repository.

The Python sources are shallowly embedded: each class becomes a structure,
each method a pure function; mutation is explicit state passing and a raised
exception is an `Except.error` (when a method mutates state before raising,
the function returns the mutated state together with the error).  IEEE-754
doubles are idealized as exact rationals: every claim treated here is about
values that are stored and read back, compared, or combined by exact
formulas, never about rounding of float arithmetic.  Comparisons between
(nonnegative) Euclidean distances, which the Python code performs on square
roots, are embedded as the equivalent comparisons between squared distances,
keeping every definition computable over `ℚ`.
-/

set_option maxRecDepth 4000

deriving instance DecidableEq for Except

namespace Tmcad

/-- Outcomes of the Python exceptions raised by the embedded code.
`duplicateId`, `selfLoop`, `invalidMethod` and `outsideBoundary` are
`ValueError`s in the source, `keyError` is `KeyError`, `typeError` is
`TypeError` (iterating a scalar), and `qhullError` stands for the error
`scipy.spatial.Delaunay` raises when a triangulation cannot be built. -/
inductive Err where
  | duplicateId
  | keyError
  | selfLoop
  | invalidMethod
  | outsideBoundary
  | qhullError
  | typeError
  | valueError
  deriving DecidableEq, Repr

/-- `Point3D` from `src/point3d.py`: an id with three coordinates.
Construction-time validation (`__post_init__`) is modelled separately
(see `post_init_check`), since it operates on arbitrary Python values. -/
structure Point3 where
  id : Int
  x : ℚ
  y : ℚ
  z : ℚ
  deriving DecidableEq, Repr

/-- First-match lookup in an insertion-ordered association list; the
embedding of lookup in the Python dict `_id_to_index` (keys are unique
by construction, so first match is the match). -/
def dictLookup (m : List (Int × Nat)) (k : Int) : Option Nat :=
  match m with
  | [] => none
  | (a, v) :: rest => if a = k then some v else dictLookup rest k

/-- `PointCloud` state from `src/point3d.py`: the id-to-position dict
(as an insertion-ordered association list), the flat coordinate array
(three rationals per point), the declared break lines, and the
`_triangulation` cache modelled as an `Option Unit` token (`none` =
invalidated).  The `_kdtree` cache is not carried: every mutation resets
it to `None`, so whenever it is consulted it reflects the current
coordinates and the k-d query is modelled directly against them. -/
structure PointCloud where
  _id_to_index : List (Int × Nat)
  _coords : List ℚ
  _break_lines : List (Int × Int)
  _triangulation : Option Unit
  deriving DecidableEq, Repr

/-- `PointCloud.__init__`: empty storage. -/
def PointCloud.init : PointCloud :=
  { _id_to_index := [], _coords := [], _break_lines := [], _triangulation := none }

/-- Number of stored points (`len(self._id_to_index)`). -/
def PointCloud.count (s : PointCloud) : Nat := s._id_to_index.length

/-- `PointCloud.add_point`: reject a duplicate id, otherwise append the id
at the next index, extend the flat coordinate array and invalidate the
cached spatial structures. -/
def PointCloud.add_point (s : PointCloud) (p : Point3) : Except Err PointCloud :=
  match dictLookup s._id_to_index p.id with
  | some _ => .error .duplicateId
  | none => .ok { s with
      _id_to_index := s._id_to_index ++ [(p.id, s._id_to_index.length)],
      _coords := s._coords ++ [p.x, p.y, p.z],
      _triangulation := none }

/-- `PointCloud.get_point`: resolve the id to its index and read the three
coordinates back out of the flat array. -/
def PointCloud.get_point (s : PointCloud) (pid : Int) : Except Err Point3 :=
  match dictLookup s._id_to_index pid with
  | none => .error .keyError
  | some idx => .ok
      { id := pid
        x := s._coords.getD (3 * idx) 0
        y := s._coords.getD (3 * idx + 1) 0
        z := s._coords.getD (3 * idx + 2) 0 }

theorem dictLookup_append_self (m : List (Int × Nat)) (k : Int) (v : Nat)
    (h : dictLookup m k = none) : dictLookup (m ++ [(k, v)]) k = some v := by
  induction m with
  | nil => simp [dictLookup]
  | cons a rest ih =>
    obtain ⟨a1, a2⟩ := a
    simp only [dictLookup, List.cons_append] at h ⊢
    by_cases hk : a1 = k
    · rw [if_pos hk] at h; exact absurd h (by simp)
    · rw [if_neg hk] at h ⊢; exact ih h

theorem getD_append_self (l l2 : List ℚ) (i : Nat) (d : ℚ) :
    (l ++ l2).getD (l.length + i) d = l2.getD i d := by
  simp [List.getD, List.getElem?_append_right (Nat.le_add_right l.length i)]

/-- C1: a point with a fresh id that `add_point` accepts is returned by
`get_point` with the identical id and the identical three coordinates
(uncompressed storage: the raw values go into the flat array and come
back unchanged). -/
theorem add_point_then_get_point_exact (s : PointCloud) (p : Point3)
    (hw : s._coords.length = 3 * s._id_to_index.length)
    (hfresh : dictLookup s._id_to_index p.id = none) :
    ∃ s2, s.add_point p = .ok s2 ∧ s2.get_point p.id = .ok p := by
  have hadd : s.add_point p = .ok { s with
      _id_to_index := s._id_to_index ++ [(p.id, s._id_to_index.length)],
      _coords := s._coords ++ [p.x, p.y, p.z],
      _triangulation := none } := by
    simp [PointCloud.add_point, hfresh]
  refine ⟨_, hadd, ?_⟩
  simp only [PointCloud.get_point,
    dictLookup_append_self _ _ _ hfresh]
  have hlen : 3 * s._id_to_index.length = s._coords.length := hw.symm
  rw [hlen]
  have g0 := getD_append_self s._coords [p.x, p.y, p.z] 0 0
  have g1 := getD_append_self s._coords [p.x, p.y, p.z] 1 0
  have g2 := getD_append_self s._coords [p.x, p.y, p.z] 2 0
  rw [Nat.add_zero] at g0
  rw [g0, g1, g2]
  simp [List.getD]

/-- Witness for C1 at a concrete fresh insertion into the empty cloud. -/
theorem add_point_then_get_point_exact_witness :
    ∃ s2, PointCloud.init.add_point ⟨7, 1/2, 3, 5⟩ = .ok s2 ∧
      s2.get_point 7 = .ok ⟨7, 1/2, 3, 5⟩ :=
  add_point_then_get_point_exact PointCloud.init ⟨7, 1/2, 3, 5⟩ rfl rfl

/-- The validation loop at the top of `PointCloud.break_lines`: the first
pair whose ids do not both resolve raises `KeyError`; a pair connecting a
point to itself raises `ValueError`; `none` when every pair is valid. -/
def breakLineCheck (s : PointCloud) : List (Int × Int) → Option Err
  | [] => none
  | (a, b) :: rest =>
    if dictLookup s._id_to_index a = none ∨ dictLookup s._id_to_index b = none then
      some .keyError
    else if a = b then some .selfLoop
    else breakLineCheck s rest

/-- `PointCloud.break_lines`: validate every pair, then replace the stored
break-line list with the argument and invalidate the triangulation.  The
assignment sits after the whole loop, so a raised error leaves the state
untouched; the pair is the state after the call and the raised error. -/
def PointCloud.break_lines (s : PointCloud) (line_points : List (Int × Int)) :
    PointCloud × Option Err :=
  match breakLineCheck s line_points with
  | some e => (s, some e)
  | none => ({ s with _break_lines := line_points, _triangulation := none }, none)

theorem breakLineCheck_eq_none_iff (s : PointCloud) (l : List (Int × Int)) :
    breakLineCheck s l = none ↔
      ∀ pr ∈ l, dictLookup s._id_to_index pr.1 ≠ none ∧
        dictLookup s._id_to_index pr.2 ≠ none ∧ pr.1 ≠ pr.2 := by
  induction l with
  | nil => simp [breakLineCheck]
  | cons hd tl ih =>
    obtain ⟨a, b⟩ := hd
    by_cases h1 : dictLookup s._id_to_index a = none ∨ dictLookup s._id_to_index b = none
    · simp only [breakLineCheck, if_pos h1]
      constructor
      · intro h; exact absurd h (by simp)
      · intro h
        rcases h1 with h1 | h1
        · exact absurd h1 (h (a, b) (by simp)).1
        · exact absurd h1 (h (a, b) (by simp)).2.1
    · by_cases h2 : a = b
      · simp only [breakLineCheck, if_neg h1, if_pos h2]
        constructor
        · intro h; exact absurd h (by simp)
        · intro h; exact absurd h2 (h (a, b) (by simp)).2.2
      · simp only [breakLineCheck, if_neg h1, if_neg h2, ih]
        push_neg at h1
        constructor
        · intro h pr hpr
          rcases List.mem_cons.mp hpr with he | ht
          · subst he; exact ⟨h1.1, h1.2, h2⟩
          · exact h pr ht
        · intro h pr hpr; exact h pr (List.mem_cons_of_mem _ hpr)

/-- C10: `break_lines` is validate-then-replace and touches nothing else.
The call never changes the id-to-index map or the coordinates; it raises
exactly when some pair has an unresolvable or self-connecting id, in which
case the whole state (previous break lines included) is unchanged; on
success the stored break-line list becomes exactly the argument (replacing
the previous list) and the cached triangulation is invalidated. -/
theorem break_lines_validate_then_replace (s : PointCloud) (lps : List (Int × Int)) :
    ((s.break_lines lps).1._id_to_index = s._id_to_index ∧
      (s.break_lines lps).1._coords = s._coords) ∧
    ((s.break_lines lps).2 ≠ none → (s.break_lines lps).1 = s) ∧
    ((s.break_lines lps).2 = none →
      (s.break_lines lps).1._break_lines = lps ∧
      (s.break_lines lps).1._triangulation = none) ∧
    ((s.break_lines lps).2 = none ↔
      ∀ pr ∈ lps, dictLookup s._id_to_index pr.1 ≠ none ∧
        dictLookup s._id_to_index pr.2 ≠ none ∧ pr.1 ≠ pr.2) := by
  rw [← breakLineCheck_eq_none_iff]
  unfold PointCloud.break_lines
  match hc : breakLineCheck s lps with
  | some e => simp [hc]
  | none => simp [hc]

/-- Witness for C10: a concrete two-point cloud, declaring `[(1, 2)]` twice;
the second call replaces (not appends to) the first declaration, and both
leave map and coordinates unchanged. -/
theorem break_lines_validate_then_replace_witness :
    (let s : PointCloud :=
      { _id_to_index := [(1, 0), (2, 1)], _coords := [0, 0, 5, 1, 0, 9],
        _break_lines := [(2, 1)], _triangulation := some () };
     (s.break_lines [(1, 2)]).1._break_lines = [(1, 2)] ∧
     (s.break_lines [(1, 2)]).1._id_to_index = s._id_to_index ∧
     (s.break_lines [(1, 2)]).1._coords = s._coords ∧
     (s.break_lines [(1, 2)]).1._triangulation = none) := by
  intro s
  have h := break_lines_validate_then_replace s [(1, 2)]
  have hnone : (s.break_lines [(1, 2)]).2 = none := by decide
  exact ⟨(h.2.2.1 hnone).1, h.1.1, h.1.2, (h.2.2.1 hnone).2⟩

/-- The value classes that `Point3D.__post_init__` can distinguish: Python
ints, floats (finite or not), and everything else (represented by strings
and `None`).  Non-finite floats are separate constructors so that the
validation's treatment of them is visible. -/
inductive PyFloat where
  | finite (q : ℚ)
  | inf
  | neginf
  | nan
  deriving DecidableEq, Repr

inductive PyVal where
  | int (n : Int)
  | float (f : PyFloat)
  | str (s : String)
  | noneVal
  deriving DecidableEq, Repr

/-- `isinstance(v, (int, float))`. -/
def PyVal.isNumeric : PyVal → Bool
  | .int _ => true
  | .float _ => true
  | _ => false

/-- `isinstance(v, int) and v >= 0`. -/
def PyVal.isNonnegInt : PyVal → Bool
  | .int n => decide (0 ≤ n)
  | _ => false

/-- `Point3D.__post_init__` from `src/point3d.py`: raise `ValueError` unless
the id is a non-negative int, then raise `ValueError` unless every
coordinate is an int or a float.  `none` means construction succeeds. -/
def post_init_check (id x y z : PyVal) : Option Err :=
  if !id.isNonnegInt then some .valueError
  else if !(x.isNumeric && y.isNumeric && z.isNumeric) then some .valueError
  else none

/-- Counterexample to C9: a `Point3D` whose x is `+inf` and whose y is `NaN`
passes `__post_init__` — non-finite coordinates are accepted, where the
claim says validation must fail. -/
theorem post_init_accepts_non_finite_counterexample :
    post_init_check (.int 1) (.float .inf) (.float .nan) (.float (.finite 0)) = none := by
  decide

/-- C9 amended: `__post_init__` succeeds exactly when the id is a
non-negative int and each coordinate is an int or a float — any float is
accepted, finite or not; only non-numeric coordinate types are rejected. -/
theorem post_init_check_accepts_iff (id x y z : PyVal) :
    post_init_check id x y z = none ↔
      (id.isNonnegInt ∧ x.isNumeric ∧ y.isNumeric ∧ z.isNumeric) := by
  unfold post_init_check
  by_cases h1 : id.isNonnegInt
  · by_cases h2 : x.isNumeric && y.isNumeric && z.isNumeric
    · simp_all [and_assoc]
    · simp_all [and_assoc]
  · simp_all

/-- Witness for C9's amended statement: a NaN coordinate is accepted. -/
theorem post_init_check_accepts_iff_witness :
    post_init_check (.int 3) (.float (.finite 2)) (.float .neginf) (.float .nan) = none :=
  (post_init_check_accepts_iff (.int 3) (.float (.finite 2)) (.float .neginf)
    (.float .nan)).mpr (by decide)

/-- Round-half-to-even on an exact rational: the rounding Python's builtin
`round` applies (`round(coord * scale)` in `quantize_coordinates`). -/
def pyRound (x : ℚ) : Int :=
  if x - ⌊x⌋ = 1/2 then (if ⌊x⌋ % 2 = 0 then ⌊x⌋ else ⌊x⌋ + 1)
  else round x

/-- `TerrainManager.quantize_coordinates`: `int(round(coord * self._coordinate_scale))`
with `self._coordinate_scale = 1.0 / precision`. -/
def quantize_coordinates (precision coord : ℚ) : Int :=
  pyRound (coord * (1 / precision))

/-- `TerrainManager.dequantize_coordinates`: `quantized / self._coordinate_scale`. -/
def dequantize_coordinates (precision : ℚ) (quantized : Int) : ℚ :=
  (quantized : ℚ) / (1 / precision)

theorem abs_pyRound_sub (x : ℚ) : |(pyRound x : ℚ) - x| ≤ 1 / 2 := by
  unfold pyRound
  by_cases htie : x - ⌊x⌋ = 1/2
  · by_cases hev : ⌊x⌋ % 2 = 0
    · rw [if_pos htie, if_pos hev, abs_le]
      constructor <;> linarith
    · rw [if_pos htie, if_neg hev, abs_le]
      push_cast
      constructor <;> linarith
  · rw [if_neg htie]
    rw [abs_sub_comm]
    exact abs_sub_round x

/-- C8: the quantized round trip is lossy only within the declared
precision — for every coordinate `v` and positive precision,
`dequantize(quantize(v))` differs from `v` by at most `precision / 2`
(half the quantization step). -/
theorem quantize_dequantize_error_le (precision v : ℚ) (h : 0 < precision) :
    |dequantize_coordinates precision (quantize_coordinates precision v) - v| ≤
      precision / 2 := by
  have hne : precision ≠ 0 := ne_of_gt h
  unfold dequantize_coordinates quantize_coordinates
  have hb := abs_pyRound_sub (v * (1 / precision))
  have h1 : (pyRound (v * (1 / precision)) : ℚ) / (1 / precision) - v =
      ((pyRound (v * (1 / precision)) : ℚ) - v * (1 / precision)) * precision := by
    field_simp
  rw [h1, abs_mul, abs_of_pos h]
  calc |(pyRound (v * (1 / precision)) : ℚ) - v * (1 / precision)| * precision
      ≤ (1 / 2) * precision := mul_le_mul_of_nonneg_right hb h.le
    _ = precision / 2 := by ring

/-- Witness for C8 with the source's default precision `0.001` and
`v = 1.2345`: the round trip lands exactly half a step away. -/
theorem quantize_dequantize_error_le_witness :
    |dequantize_coordinates (1/1000) (quantize_coordinates (1/1000) (12345/10000)) -
      12345/10000| ≤ (1/1000) / 2 :=
  quantize_dequantize_error_le (1/1000) (12345/10000) (by norm_num)

/-- A Python `for` loop that builds a list, propagating the first raised
exception. -/
def mapExcept {α β : Type} (f : α → Except Err β) : List α → Except Err (List β)
  | [] => .ok []
  | a :: l =>
    match f a with
    | .error e => .error e
    | .ok b =>
      match mapExcept f l with
      | .error e => .error e
      | .ok bl => .ok (b :: bl)

/-- Squared Euclidean distance between coordinate triples.  The Python code
compares (nonnegative) square-root distances; the embedding compares their
squares, which orders identically. -/
def distSq3 (a b : ℚ × ℚ × ℚ) : ℚ :=
  (a.1 - b.1) * (a.1 - b.1) + (a.2.1 - b.2.1) * (a.2.1 - b.2.1) +
    (a.2.2 - b.2.2) * (a.2.2 - b.2.2)

/-- `TerrainManager` from `src/terrain_storage.py`: quantization precision,
the owned point cloud, and the cached `cKDTree` modelled as the snapshot of
coordinate rows it was built from (`none` = never built). -/
structure TerrainManager where
  precision : ℚ
  point_cloud : PointCloud
  kdtree : Option (List (ℚ × ℚ × ℚ))
  deriving DecidableEq, Repr

def TerrainManager.init (precision : ℚ) : TerrainManager :=
  { precision := precision, point_cloud := PointCloud.init, kdtree := none }

/-- The row-building loop of `TerrainManager._update_spatial_index`:
`self.point_cloud.get_point(i)` for `i in range(len(self.point_cloud))`.
Note the loop index is passed to `get_point` as a point ID, so the loop
raises `KeyError` unless the stored ids are exactly `0 .. count-1`.
Modelled from the spec: `PointCloud` in `src/point3d.py` defines no
`__len__`, although `terrain_storage.py`, `terrain_model.py` and
`terrain_analysis.py` call `len(...)` on it and the repository's tests rely
on those calls; spec §3 makes the position map a bijection onto
`[0, count)`, so `len` is modelled as the number of stored ids. -/
def buildRows (c : PointCloud) : Except Err (List (ℚ × ℚ × ℚ)) :=
  mapExcept (fun i => (c.get_point (Int.ofNat i)).map (fun p => (p.x, p.y, p.z)))
    (List.range c.count)

/-- `TerrainManager._update_spatial_index`: with an empty cloud return
without touching the index, otherwise rebuild it from the current points.
A `KeyError` from the row loop leaves the old index in place. -/
def TerrainManager.update_spatial_index (m : TerrainManager) :
    TerrainManager × Option Err :=
  if m.point_cloud.count = 0 then (m, none)
  else
    match buildRows m.point_cloud with
    | .error e => (m, some e)
    | .ok rows => ({ m with kdtree := some rows }, none)

/-- The insertion loop of `TerrainManager.add_points`: add each point in
order; the first `ValueError` propagates, keeping the points added so far. -/
def addPointLoop (c : PointCloud) : List Point3 → PointCloud × Option Err
  | [] => (c, none)
  | p :: ps =>
    match c.add_point p with
    | .error e => (c, some e)
    | .ok c2 => addPointLoop c2 ps

/-- `TerrainManager.add_points`: insert all points one by one, then update
the spatial index.  An exception anywhere propagates with the mutations
performed so far kept. -/
def TerrainManager.add_points (m : TerrainManager) (points : List Point3) :
    TerrainManager × Option Err :=
  match addPointLoop m.point_cloud points with
  | (c2, some e) => ({ m with point_cloud := c2 }, some e)
  | (c2, none) => TerrainManager.update_spatial_index { m with point_cloud := c2 }

/-- Counterexample to C2: inserting the batch `[(id 0), (id 0 again)]` into
an empty manager raises on the duplicate but leaves the first point
inserted — the store's contents after the failed call differ from before
it, so batch insertion is not atomic. -/
theorem add_points_not_atomic_counterexample :
    ((TerrainManager.init (1/1000)).add_points
        [⟨0, 0, 0, 0⟩, ⟨0, 1, 1, 1⟩]).2 = some .duplicateId ∧
    ((TerrainManager.init (1/1000)).add_points
        [⟨0, 0, 0, 0⟩, ⟨0, 1, 1, 1⟩]).1.point_cloud._id_to_index = [(0, 0)] ∧
    (TerrainManager.init (1/1000)).point_cloud._id_to_index = [] := by
  decide

/-- Sequential insertion of a list of points that all succeed (`none` when
some insertion fails).  Spec-side description used to state what
`add_points` actually guarantees. -/
def addAllOk (c : PointCloud) : List Point3 → Option PointCloud
  | [] => some c
  | p :: ps =>
    match c.add_point p with
    | .error _ => none
    | .ok c2 => addAllOk c2 ps

theorem update_spatial_index_cloud (m : TerrainManager) :
    (m.update_spatial_index).1.point_cloud = m.point_cloud := by
  unfold TerrainManager.update_spatial_index
  by_cases h : m.point_cloud.count = 0
  · simp [h]
  · simp only [if_neg h]
    match buildRows m.point_cloud with
    | .error e => rfl
    | .ok rows => rfl

theorem addPointLoop_prefix (c : PointCloud) (ps : List Point3) :
    ∃ k, k ≤ ps.length ∧
      addAllOk c (ps.take k) = some (addPointLoop c ps).1 ∧
      ((addPointLoop c ps).2 = none → k = ps.length) := by
  induction ps generalizing c with
  | nil => exact ⟨0, by simp [addAllOk, addPointLoop]⟩
  | cons p ps ih =>
    match hstep : c.add_point p with
    | .error e =>
      refine ⟨0, by simp, by simp [addAllOk, addPointLoop, hstep], ?_⟩
      simp [addPointLoop, hstep]
    | .ok c2 =>
      obtain ⟨k, hk, hall, hnone⟩ := ih c2
      refine ⟨k + 1, by simpa using hk, ?_, ?_⟩
      · simpa [addAllOk, addPointLoop, hstep] using hall
      · intro h
        simp only [addPointLoop, hstep] at h
        simp [hnone h]

/-- C2 amended: `add_points` is sequential, not atomic.  The cloud after
the call is always the result of successfully inserting some prefix of the
batch (all of it when nothing was raised); when a point fails validation
the points before it stay inserted, which is the partial insert the
original claim rules out. -/
theorem add_points_sequential_prefix (m : TerrainManager) (ps : List Point3) :
    ∃ k, k ≤ ps.length ∧
      addAllOk m.point_cloud (ps.take k) = some (m.add_points ps).1.point_cloud ∧
      ((m.add_points ps).2 = none → k = ps.length) := by
  obtain ⟨k, hk, hall, hnone⟩ := addPointLoop_prefix m.point_cloud ps
  unfold TerrainManager.add_points
  match hloop : addPointLoop m.point_cloud ps with
  | (c2, some e) =>
    refine ⟨k, hk, ?_, by simp⟩
    rw [hloop] at hall
    simpa using hall
  | (c2, none) =>
    refine ⟨k, hk, ?_, ?_⟩
    · rw [hloop] at hall
      rw [update_spatial_index_cloud]
      simpa using hall
    · intro _
      exact hnone (by rw [hloop])

/-- Witness for C2's amended statement: the failing batch of the
counterexample stops after its first point (`k = 1` of 2). -/
theorem add_points_sequential_prefix_witness :
    ∃ k, k ≤ 2 ∧
      addAllOk (TerrainManager.init (1/1000)).point_cloud
          ([⟨0, 0, 0, 0⟩, ⟨0, 1, 1, 1⟩].take k) =
        some (((TerrainManager.init (1/1000)).add_points
          [(⟨0, 0, 0, 0⟩ : Point3), ⟨0, 1, 1, 1⟩]).1.point_cloud) ∧
      (((TerrainManager.init (1/1000)).add_points
          [(⟨0, 0, 0, 0⟩ : Point3), ⟨0, 1, 1, 1⟩]).2 = none → k = 2) :=
  add_points_sequential_prefix (TerrainManager.init (1/1000))
    [⟨0, 0, 0, 0⟩, ⟨0, 1, 1, 1⟩]

/-- Insert an index into a list kept sorted by `key` (ascending). -/
def insertSorted (key : Nat → ℚ) (i : Nat) : List Nat → List Nat
  | [] => [i]
  | j :: l => if key i < key j then i :: j :: l else j :: insertSorted key i l

/-- Indices sorted by ascending `key`: the order in which
`cKDTree.query` returns neighbors (documented scipy behavior: the `k`
nearest, sorted by ascending distance; tie order unspecified). -/
def sortIdx (key : Nat → ℚ) : List Nat → List Nat
  | [] => []
  | i :: l => insertSorted key i (sortIdx key l)

/-- `TerrainManager.find_nearest_neighbors`.  `cKDTree.query` is modelled
by its documented behavior: it returns the `min(k, n)` nearest rows by
ascending 3D distance, and returns *scalars* rather than length-1 arrays
when that effective `k` is 1.  The source wraps the scalar into a list
only when the caller's `k` equals 1, so when `min(k, n) = 1` with `k > 1`
the final comprehension iterates over a numpy scalar and raises
`TypeError`.  Each returned index is passed to `get_point` as a point ID. -/
def TerrainManager.find_nearest_neighbors (m : TerrainManager) (query_point : Point3)
    (k : Nat) : Except Err (List Point3) :=
  match m.kdtree with
  | none => .ok []
  | some rows =>
    if m.point_cloud.count = 0 then .ok []
    else
      let key : Nat → ℚ := fun i =>
        distSq3 (rows.getD i (0, 0, 0)) (query_point.x, query_point.y, query_point.z)
      let kk := min k m.point_cloud.count
      let sorted := sortIdx key (List.range rows.length)
      if kk = 1 then
        if k = 1 then
          match sorted with
          | [] => .error .typeError
          | i :: _ => (m.point_cloud.get_point (Int.ofNat i)).map (fun p => [p])
        else .error .typeError
      else mapExcept (fun i => m.point_cloud.get_point (Int.ofNat i)) (sorted.take kk)

/-- C3 failing input: a manager holding exactly one point, queried with
`k = 2`.  The claim says all stored points (here the single one) come back;
the code raises `TypeError` because `min(k, n) = 1` makes scipy return a
scalar index which the unwrapping guard (`if k == 1`) does not catch. -/
theorem find_nearest_neighbors_single_point_crash :
    (((TerrainManager.init (1/1000)).add_points [⟨0, 2, 3, 4⟩]).1.point_cloud.count = 1 ∧
     ((TerrainManager.init (1/1000)).add_points [⟨0, 2, 3, 4⟩]).2 = none) ∧
    ((TerrainManager.init (1/1000)).add_points [⟨0, 2, 3, 4⟩]).1.find_nearest_neighbors
        ⟨99, 0, 0, 0⟩ 2 = .error .typeError := by
  decide

/-- `TerrainManager.find_points_in_radius`.  `cKDTree.query_ball_point` is
modelled by its documented behavior: it returns the indices of all rows
within distance `radius` of the center (`dist ≤ radius`, embedded as the
equivalent comparison of squares for `radius ≥ 0`), in an order that is
*not* sorted by distance; the model fixes the row-index order.  Each index
is then passed to `get_point` as a point ID. -/
def TerrainManager.find_points_in_radius (m : TerrainManager) (center : Point3)
    (radius : ℚ) : Except Err (List Point3) :=
  match m.kdtree with
  | none => .ok []
  | some rows =>
    if radius < 0 then .ok []
    else
      mapExcept (fun i => m.point_cloud.get_point (Int.ofNat i))
        ((List.range rows.length).filter (fun i =>
          distSq3 (rows.getD i (0, 0, 0)) (center.x, center.y, center.z) ≤
            radius * radius))

/-- Counterexample to C4's ordering clause: two stored points at distances
3 and 1 from the query center are returned in storage order — the farther
point first — not by ascending distance. -/
theorem find_points_in_radius_not_sorted_counterexample :
    ((TerrainManager.init 1).add_points [⟨0, 3, 0, 0⟩, ⟨1, 1, 0, 0⟩]).1 =
      { precision := 1,
        point_cloud := { _id_to_index := [(0, 0), (1, 1)], _coords := [3, 0, 0, 1, 0, 0],
                         _break_lines := [], _triangulation := none },
        kdtree := some [(3, 0, 0), (1, 0, 0)] } ∧
    (TerrainManager.find_points_in_radius
      { precision := 1,
        point_cloud := { _id_to_index := [(0, 0), (1, 1)], _coords := [3, 0, 0, 1, 0, 0],
                         _break_lines := [], _triangulation := none },
        kdtree := some [(3, 0, 0), (1, 0, 0)] } ⟨9, 0, 0, 0⟩ 5) =
      .ok [⟨0, 3, 0, 0⟩, ⟨1, 1, 0, 0⟩] ∧
    ¬ distSq3 (3, 0, 0) (0, 0, 0) ≤ distSq3 (1, 0, 0) (0, 0, 0) := by
  refine ⟨by decide, ?_, by norm_num [distSq3]⟩
  norm_num [TerrainManager.find_points_in_radius, distSq3, mapExcept,
    PointCloud.get_point, dictLookup, List.range_succ, List.filter, List.getD]

theorem mapExcept_ok_forall2 {α β : Type} {f : α → Except Err β} :
    ∀ {l : List α} {bl : List β}, mapExcept f l = .ok bl →
      List.Forall₂ (fun a b => f a = .ok b) l bl := by
  intro l
  induction l with
  | nil =>
    intro bl h
    simp only [mapExcept] at h
    cases h
    exact .nil
  | cons a t ih =>
    intro bl h
    simp only [mapExcept] at h
    match hfa : f a with
    | .error e => rw [hfa] at h; cases h
    | .ok b =>
      rw [hfa] at h
      match hml : mapExcept f t with
      | .error e => rw [hml] at h; cases h
      | .ok bt =>
        rw [hml] at h
        cases h
        exact .cons hfa (ih hml)

theorem mapExcept_exists_ok {α β : Type} {f : α → Except Err β} :
    ∀ {l : List α}, (∀ a ∈ l, ∃ b, f a = .ok b) →
      ∃ bl, mapExcept f l = .ok bl := by
  intro l
  induction l with
  | nil => intro _; exact ⟨[], rfl⟩
  | cons a t ih =>
    intro h
    obtain ⟨b, hb⟩ := h a (by simp)
    obtain ⟨bt, hbt⟩ := ih (fun x hx => h x (by simp [hx]))
    exact ⟨b :: bt, by simp only [mapExcept, hb, hbt]⟩

theorem forall2_mem_right {α β : Type} {R : α → β → Prop} :
    ∀ {l : List α} {bl : List β}, List.Forall₂ R l bl →
      ∀ b ∈ bl, ∃ a ∈ l, R a b := by
  intro l bl h
  induction h with
  | nil => intro b hb; cases hb
  | cons hab _ ih =>
    intro b hb
    rcases List.mem_cons.mp hb with he | ht
    · exact ⟨_, by simp, he ▸ hab⟩
    · obtain ⟨a, ha, har⟩ := ih b ht
      exact ⟨a, by simp [ha], har⟩

theorem forall2_mem_left {α β : Type} {R : α → β → Prop} :
    ∀ {l : List α} {bl : List β}, List.Forall₂ R l bl →
      ∀ a ∈ l, ∃ b ∈ bl, R a b := by
  intro l bl h
  induction h with
  | nil => intro a ha; cases ha
  | cons hab _ ih =>
    intro a ha
    rcases List.mem_cons.mp ha with he | ht
    · exact ⟨_, by simp, he ▸ hab⟩
    · obtain ⟨b, hb, hbr⟩ := ih a ht
      exact ⟨b, by simp [hb], hbr⟩

theorem forall2_getD {α β : Type} {R : α → β → Prop} :
    ∀ {l : List α} {bl : List β}, List.Forall₂ R l bl →
      ∀ i (da : α) (db : β), i < l.length → R (l.getD i da) (bl.getD i db) := by
  intro l bl h
  induction h with
  | nil => intro i da db hi; simp at hi
  | cons hab htl ih =>
    intro i da db hi
    cases i with
    | zero => simpa [List.getD] using hab
    | succ n =>
      simp only [List.getD_cons_succ]
      exact ih n da db (by simpa using hi)

theorem get_point_ok_id (c : PointCloud) (pid : Int) (p : Point3)
    (h : c.get_point pid = .ok p) : p.id = pid := by
  unfold PointCloud.get_point at h
  match hl : dictLookup c._id_to_index pid with
  | none => rw [hl] at h; cases h
  | some idx => rw [hl] at h; cases h; rfl

theorem getD_range (n i : Nat) (h : i < n) : (List.range n).getD i 0 = i := by
  have hh : i < (List.range n).length := by simpa using h
  simp [List.getD, List.getElem?_eq_getElem hh, List.getElem_range]

/-- Unpacking `buildRows c = ok rows`: the snapshot has one row per stored
point, and row `i` holds exactly the coordinates `get_point(i)` returns. -/
theorem buildRows_ok_spec (c : PointCloud) (rows : List (ℚ × ℚ × ℚ))
    (h : buildRows c = .ok rows) :
    rows.length = c.count ∧
      ∀ i, i < c.count → ∃ p, c.get_point (Int.ofNat i) = .ok p ∧
        rows.getD i (0, 0, 0) = (p.x, p.y, p.z) := by
  have h2 := mapExcept_ok_forall2 h
  have hlen := List.Forall₂.length_eq h2
  simp only [List.length_range] at hlen
  refine ⟨hlen.symm, ?_⟩
  intro i hi
  have hR := forall2_getD h2 i 0 (0, 0, 0) (by simpa using hi)
  rw [getD_range _ _ hi] at hR
  match hg : c.get_point (Int.ofNat i) with
  | .error e => rw [hg] at hR; cases hR
  | .ok p =>
    rw [hg] at hR
    refine ⟨p, rfl, ?_⟩
    simpa [Except.map] using hR.symm

/-- C4 amended: with the spatial index built from the current store, the
radius query returns exactly the stored points whose Euclidean distance to
the center is ≤ radius (squared-distance form), but in the index order of
the ball query, *not* sorted by ascending distance.  (When `buildRows`
succeeds, the stored ids are exactly `0 .. count-1`, which is what the
`p.id` bounds below express.) -/
theorem find_points_in_radius_exact (m : TerrainManager) (center : Point3)
    (radius : ℚ) (rows : List (ℚ × ℚ × ℚ))
    (hk : m.kdtree = some rows)
    (hrows : buildRows m.point_cloud = .ok rows)
    (hr : 0 ≤ radius) :
    ∃ l, m.find_points_in_radius center radius = .ok l ∧
      ∀ p : Point3, p ∈ l ↔
        (0 ≤ p.id ∧ p.id < (m.point_cloud.count : Int) ∧
          m.point_cloud.get_point p.id = .ok p ∧
          distSq3 (p.x, p.y, p.z) (center.x, center.y, center.z) ≤ radius * radius) := by
  obtain ⟨hlen, hget⟩ := buildRows_ok_spec m.point_cloud rows hrows
  set P : Nat → Bool := fun i =>
    decide (distSq3 (rows.getD i (0, 0, 0)) (center.x, center.y, center.z) ≤
      radius * radius) with hP
  have hres : m.find_points_in_radius center radius =
      mapExcept (fun i => m.point_cloud.get_point (Int.ofNat i))
        ((List.range rows.length).filter P) := by
    simp only [TerrainManager.find_points_in_radius, hk]
    rw [if_neg (not_lt.mpr hr)]
  have hallok : ∀ i ∈ (List.range rows.length).filter P,
      ∃ p, m.point_cloud.get_point (Int.ofNat i) = .ok p := by
    intro i hi
    have hir : i ∈ List.range rows.length := List.mem_of_mem_filter hi
    have hilt : i < m.point_cloud.count := by
      rw [← hlen]; exact List.mem_range.mp hir
    obtain ⟨p, hp, _⟩ := hget i hilt
    exact ⟨p, hp⟩
  obtain ⟨l, hl⟩ := mapExcept_exists_ok hallok
  refine ⟨l, by rw [hres, hl], ?_⟩
  have hf2 := mapExcept_ok_forall2 hl
  intro p
  constructor
  · intro hpl
    obtain ⟨i, hif, hig⟩ := forall2_mem_right hf2 p hpl
    have hir : i ∈ List.range rows.length := List.mem_of_mem_filter hif
    have hilt : i < m.point_cloud.count := by
      rw [← hlen]; exact List.mem_range.mp hir
    have hid : p.id = Int.ofNat i := get_point_ok_id _ _ _ hig
    have hPi : P i = true := List.of_mem_filter hif
    obtain ⟨p2, hp2, hp2row⟩ := hget i hilt
    have hpp : p2 = p := by
      rw [hig] at hp2; cases hp2; rfl
    subst hpp
    refine ⟨by rw [hid]; exact Int.ofNat_nonneg i, by rw [hid]; exact Int.ofNat_lt.mpr hilt,
      by rw [hid]; exact hig, ?_⟩
    rw [hP] at hPi
    simp only [decide_eq_true_eq] at hPi
    rwa [hp2row] at hPi
  · rintro ⟨hpos, hlt, hgetp, hdist⟩
    set i : Nat := p.id.toNat with hi
    have hofNat : Int.ofNat i = p.id := by
      rw [hi]; exact Int.toNat_of_nonneg hpos
    have hilt : i < m.point_cloud.count := by
      rw [hi]
      omega
    obtain ⟨p2, hp2, hp2row⟩ := hget i hilt
    have hpp : p2 = p := by
      rw [hofNat, hgetp] at hp2; cases hp2; rfl
    subst hpp
    have hPi : P i = true := by
      rw [hP]
      simp only [decide_eq_true_eq]
      rw [hp2row]
      exact hdist
    have hif : i ∈ (List.range rows.length).filter P := by
      rw [List.mem_filter]
      exact ⟨List.mem_range.mpr (by rw [hlen]; exact hilt), hPi⟩
    obtain ⟨b, hb, hbg⟩ := forall2_mem_left hf2 i hif
    have : b = p2 := by
      rw [hofNat, hgetp] at hbg; cases hbg; rfl
    rwa [← this]

/-- The concrete two-point manager used by the C4 witness (both ids 0 and 1
stored, index snapshot matching the cloud). -/
def radiusWitnessManager : TerrainManager :=
  { precision := 1,
    point_cloud := { _id_to_index := [(0, 0), (1, 1)], _coords := [3, 0, 0, 1, 0, 0],
                     _break_lines := [], _triangulation := none },
    kdtree := some [(3, 0, 0), (1, 0, 0)] }

/-- The concrete query center used by the C4 witness. -/
def radiusWitnessCenter : Point3 := ⟨9, 0, 0, 0⟩

/-- Witness for C4's amended statement at the two-point manager of the
counterexample, radius 5. -/
theorem find_points_in_radius_exact_witness :
    ∃ l, radiusWitnessManager.find_points_in_radius radiusWitnessCenter 5 = .ok l ∧
      ∀ p : Point3, p ∈ l ↔
        (0 ≤ p.id ∧ p.id < (radiusWitnessManager.point_cloud.count : Int) ∧
          radiusWitnessManager.point_cloud.get_point p.id = .ok p ∧
          distSq3 (p.x, p.y, p.z)
            (radiusWitnessCenter.x, radiusWitnessCenter.y, radiusWitnessCenter.z) ≤
            5 * 5) :=
  find_points_in_radius_exact radiusWitnessManager radiusWitnessCenter 5
    [(3, 0, 0), (1, 0, 0)] rfl (by decide) (by norm_num)

/-- `PointCloud._point_to_line_distance`, squared: the perpendicular
distance from `(x, y)` to the infinite line through `p1`, `p2` in the
(x, y) projection (`|cross(point - p1, dir/len)|` in the source), or the
distance to `p1` itself when the two endpoints coincide.  Squaring keeps
the computation rational; all the source's comparisons on these
nonnegative distances are embedded as comparisons of the squares. -/
def point_to_line_distSq (x y : ℚ) (p1 p2 : Point3) : ℚ :=
  let dx := p2.x - p1.x
  let dy := p2.y - p1.y
  let lenSq := dx * dx + dy * dy
  if lenSq = 0 then (x - p1.x) * (x - p1.x) + (y - p1.y) * (y - p1.y)
  else
    let cross := (x - p1.x) * dy - (y - p1.y) * dx
    cross * cross / lenSq

/-- `PointCloud._project_point_to_line`: the projection parameter of
`(x, y)` onto the segment `p1 p2`, clamped to `[0, 1]`; `0` for a
degenerate segment. -/
def project_point_to_line (x y : ℚ) (p1 p2 : Point3) : ℚ :=
  let dx := p2.x - p1.x
  let dy := p2.y - p1.y
  let lenSq := dx * dx + dy * dy
  if lenSq = 0 then 0
  else max 0 (min 1 (((x - p1.x) * dx + (y - p1.y) * dy) / lenSq))

/-- The nearest-break-line scan inside `interpolate_z` (barycentric path):
walk the declared lines, resolve both endpoints (a `KeyError` propagates),
and keep the line of strictly smallest perpendicular distance (first one
wins ties; `min_dist` starts at infinity, modelled by the `none` start). -/
def nearestLineLoop (s : PointCloud) (x y : ℚ) :
    List (Int × Int) → Option ((Point3 × Point3) × ℚ) →
      Except Err (Option ((Point3 × Point3) × ℚ))
  | [], best => .ok best
  | (a, b) :: rest, best =>
    match s.get_point a with
    | .error e => .error e
    | .ok p1 =>
      match s.get_point b with
      | .error e => .error e
      | .ok p2 =>
        let d := point_to_line_distSq x y p1 p2
        match best with
        | none => nearestLineLoop s x y rest (some ((p1, p2), d))
        | some (bl, bd) =>
          if d < bd then nearestLineLoop s x y rest (some ((p1, p2), d))
          else nearestLineLoop s x y rest (some (bl, bd))

/-- The scipy Delaunay triangulation behind `_ensure_triangulation`,
abstracted as an oracle: whether a (re)build succeeds, which simplex (if
any) `find_simplex` locates for a query point, and the elevation the
generic barycentric computation (the simplex transform dotted with its
vertex elevations) yields there.  The properties proved below hold for
every oracle, so nothing about the triangulation itself is assumed. -/
structure TriOracle where
  canBuild : Bool
  findSimplex : ℚ → ℚ → Option Nat
  baryValue : Nat → ℚ → ℚ → ℚ

/-- Coordinate row `i` of the flat array (`points_array[i]` in the source). -/
def diwRow (s : PointCloud) (i : Nat) : ℚ × ℚ × ℚ :=
  (s._coords.getD (3 * i) 0, s._coords.getD (3 * i + 1) 0, s._coords.getD (3 * i + 2) 0)

/-- Squared 2D Euclidean distance. -/
def distSq2 (a b : ℚ × ℚ) : ℚ :=
  (a.1 - b.1) * (a.1 - b.1) + (a.2 - b.2) * (a.2 - b.2)

/-- The `'diw'` branch of `interpolate_z`: query the (x, y) k-d tree for
the `min(5, n)` nearest rows; if the nearest row is within `1e-10`
(squared: `1e-20`) return its elevation exactly, otherwise return the
`1/dist²`-weighted average of the selected elevations.  An empty cloud
cannot reach this branch with a real triangulation (the build fails
first); the model returns the numpy failure as `typeError` there. -/
def diwInterp (s : PointCloud) (x y : ℚ) : Except Err ℚ :=
  let n := s.count
  let key : Nat → ℚ := fun i => distSq2 ((diwRow s i).1, (diwRow s i).2.1) (x, y)
  match sortIdx key (List.range n) with
  | [] => .error .typeError
  | i0 :: rest =>
    if key i0 < 1 / 10 ^ 20 then .ok (diwRow s i0).2.2
    else
      let chosen := (i0 :: rest).take (min 5 n)
      let wsum := (chosen.map (fun i => 1 / key i)).sum
      let zsum := (chosen.map (fun i => 1 / key i * (diwRow s i).2.2)).sum
      .ok (zsum / wsum)

/-- `PointCloud.interpolate_z` from `src/point3d.py`: reject any method
name other than `'barycentric'` or `'diw'`; ensure the triangulation
(a failed scipy build raises); for `'barycentric'` locate the containing
simplex (`ValueError` when outside), then — when break lines exist — find
the nearest break line and, within the `0.1` perpendicular-distance
threshold and with the clamped projection parameter in `[0, 1]`, return
the linear blend of the two endpoint elevations instead of the generic
barycentric value; for `'diw'` run the inverse-distance weighting. -/
def PointCloud.interpolate_z (s : PointCloud) (o : TriOracle) (x y : ℚ)
    (method : String) : Except Err ℚ :=
  if method ≠ "barycentric" ∧ method ≠ "diw" then .error .invalidMethod
  else if s._triangulation = none ∧ o.canBuild = false then .error .qhullError
  else if method = "barycentric" then
    match o.findSimplex x y with
    | none => .error .outsideBoundary
    | some simplex =>
      if s._break_lines ≠ [] then
        match nearestLineLoop s x y s._break_lines none with
        | .error e => .error e
        | .ok none => .ok (o.baryValue simplex x y)
        | .ok (some ((p1, p2), dSq)) =>
          if dSq < 1 / 100 then
            let t := project_point_to_line x y p1 p2
            if 0 ≤ t ∧ t ≤ 1 then .ok (p1.z + t * (p2.z - p1.z))
            else .ok (o.baryValue simplex x y)
          else .ok (o.baryValue simplex x y)
      else .ok (o.baryValue simplex x y)
  else diwInterp s x y

theorem get_point_error_keyError (c : PointCloud) (pid : Int) (e : Err)
    (h : c.get_point pid = .error e) : e = .keyError := by
  unfold PointCloud.get_point at h
  match h2 : dictLookup c._id_to_index pid with
  | none => rw [h2] at h; cases h; rfl
  | some idx => rw [h2] at h; cases h

theorem nearestLineLoop_error_keyError (s : PointCloud) (x y : ℚ) :
    ∀ (l : List (Int × Int)) (best : Option ((Point3 × Point3) × ℚ)) (e : Err),
      nearestLineLoop s x y l best = .error e → e = .keyError := by
  intro l
  induction l with
  | nil => intro best e h; simp [nearestLineLoop] at h
  | cons hd tl ih =>
    obtain ⟨a, b⟩ := hd
    intro best e h
    simp only [nearestLineLoop] at h
    cases h1 : s.get_point a with
    | error e1 =>
      simp only [h1] at h
      cases h
      exact get_point_error_keyError s a _ h1
    | ok p1 =>
      simp only [h1] at h
      cases h2 : s.get_point b with
      | error e2 =>
        simp only [h2] at h
        cases h
        exact get_point_error_keyError s b _ h2
      | ok p2 =>
        simp only [h2] at h
        cases best with
        | none => exact ih _ e h
        | some bb =>
          obtain ⟨bl, bd⟩ := bb
          have h3 : (if point_to_line_distSq x y p1 p2 < bd then
              nearestLineLoop s x y tl (some ((p1, p2), point_to_line_distSq x y p1 p2))
            else nearestLineLoop s x y tl (some (bl, bd))) = .error e := h
          by_cases hd2 : point_to_line_distSq x y p1 p2 < bd
          · rw [if_pos hd2] at h3; exact ih _ e h3
          · rw [if_neg hd2] at h3; exact ih _ e h3

theorem diwInterp_ne_invalidMethod (s : PointCloud) (x y : ℚ) :
    diwInterp s x y ≠ .error .invalidMethod := by
  unfold diwInterp
  cases hs : sortIdx (fun i => distSq2 ((diwRow s i).1, (diwRow s i).2.1) (x, y))
      (List.range s.count) with
  | nil => simp [hs]
  | cons i0 rest =>
    simp only [hs]
    split <;> simp

/-- C5 amended: `interpolate_z` fails with `InvalidMethod` exactly for
method names outside `{barycentric, diw}` — the source's second method is
spelled `diw`, not the claim's `idw`. -/
theorem interpolate_z_method_gate (s : PointCloud) (o : TriOracle) (x y : ℚ)
    (method : String) :
    s.interpolate_z o x y method = .error .invalidMethod ↔
      (method ≠ "barycentric" ∧ method ≠ "diw") := by
  unfold PointCloud.interpolate_z
  by_cases hm : method ≠ "barycentric" ∧ method ≠ "diw"
  · simp [hm]
  · rw [if_neg hm]
    simp only [iff_false_intro hm, iff_false]
    by_cases he : s._triangulation = none ∧ o.canBuild = false
    · simp [he]
    · rw [if_neg he]
      by_cases hb : method = "barycentric"
      · rw [if_pos hb]
        cases hfs : o.findSimplex x y with
        | none => simp [hfs]
        | some simplex =>
          simp only [hfs]
          by_cases hbl : s._break_lines ≠ []
          · rw [if_pos hbl]
            cases hscan : nearestLineLoop s x y s._break_lines none with
            | error e =>
              have he2 := nearestLineLoop_error_keyError s x y s._break_lines none e hscan
              subst he2
              simp [hscan]
            | ok res =>
              cases res with
              | none => simp [hscan]
              | some pr =>
                obtain ⟨⟨p1, p2⟩, dSq⟩ := pr
                simp only [hscan]
                split
                · split <;> simp
                · simp
          · simp [hbl]
      · rw [if_neg hb]
        exact diwInterp_ne_invalidMethod s x y

/-- Counterexample to C5: the method name `idw` named by the claim (and
spec) is rejected with `InvalidMethod`; the source accepts `diw` instead. -/
theorem interpolate_z_rejects_idw_counterexample :
    PointCloud.init.interpolate_z ⟨true, fun _ _ => none, fun _ _ _ => 0⟩ 0 0 "idw" =
      .error .invalidMethod := by
  decide

/-- Witness for C5's amended statement: `diw` is not rejected with
`InvalidMethod` (here it fails later, with the triangulation error). -/
theorem interpolate_z_method_gate_witness :
    ¬ PointCloud.init.interpolate_z ⟨true, fun _ _ => none, fun _ _ _ => 0⟩ 0 0 "diw" =
      .error .invalidMethod :=
  fun h =>
    ((interpolate_z_method_gate PointCloud.init
      ⟨true, fun _ _ => none, fun _ _ _ => 0⟩ 0 0 "diw").mp h).2 rfl

/-- C6: whenever break lines are declared and the barycentric query lies
inside some simplex, if the nearest-line scan singles out the line
`(p1, p2)` within the squared threshold `(0.1)² = 1/100` and the clamped
projection parameter `t` lies in `[0, 1]` (as it always does), the call
returns the linear blend `p1.z + t·(p2.z − p1.z)` of the endpoint
elevations — for every triangulation oracle, i.e. never the generic
barycentric value. -/
theorem interpolate_z_break_line_blend (s : PointCloud) (o : TriOracle) (x y : ℚ)
    (simplex : Nat) (p1 p2 : Point3) (dSq : ℚ)
    (hens : ¬(s._triangulation = none ∧ o.canBuild = false))
    (hfs : o.findSimplex x y = some simplex)
    (hbl : s._break_lines ≠ [])
    (hscan : nearestLineLoop s x y s._break_lines none = .ok (some ((p1, p2), dSq)))
    (hnear : dSq < 1 / 100)
    (ht : 0 ≤ project_point_to_line x y p1 p2 ∧ project_point_to_line x y p1 p2 ≤ 1) :
    s.interpolate_z o x y "barycentric" =
      .ok (p1.z + project_point_to_line x y p1 p2 * (p2.z - p1.z)) := by
  unfold PointCloud.interpolate_z
  rw [if_neg (by simp), if_neg hens, if_pos rfl]
  simp only [hfs, hscan, hbl, hnear, ht.1, ht.2, if_pos, ne_eq, not_false_eq_true,
    if_true, and_self]

/-- The concrete break-line cloud of the C6 witness: two points at
`(0,0,10)` and `(2,0,20)` joined by a break line, triangulation built. -/
def blendWitnessCloud : PointCloud :=
  { _id_to_index := [(1, 0), (2, 1)], _coords := [0, 0, 10, 2, 0, 20],
    _break_lines := [(1, 2)], _triangulation := some () }

/-- A concrete oracle for the C6 witness: every point is inside simplex 0
and the generic barycentric value is 0 (so a blend of 15 cannot come from
the oracle). -/
def blendWitnessOracle : TriOracle :=
  ⟨true, fun _ _ => some 0, fun _ _ _ => 0⟩

/-- Witness for C6: the query `(1, 1/100)` sits `0.01` away from the break
line, projects to `t = 1/2`, and interpolates to `10 + 1/2·10 = 15` — the
blend of the endpoint elevations, not the oracle's barycentric value 0. -/
theorem interpolate_z_break_line_blend_witness :
    blendWitnessCloud.interpolate_z blendWitnessOracle 1 (1/100) "barycentric" =
      .ok 15 := by
  have h := interpolate_z_break_line_blend blendWitnessCloud blendWitnessOracle
    1 (1/100) 0 ⟨1, 0, 0, 10⟩ ⟨2, 2, 0, 20⟩ (1/10000)
    (by simp [blendWitnessCloud])
    rfl
    (by simp [blendWitnessCloud])
    (by norm_num [nearestLineLoop, blendWitnessCloud, PointCloud.get_point,
      dictLookup, point_to_line_distSq, List.getD])
    (by norm_num)
    (by norm_num [project_point_to_line])
  rw [h]
  norm_num [project_point_to_line]

/-- Projected 2D area of triangle `t` (index triple into `pts`):
`abs(np.cross(a[:2], b[:2])) / 2` with `a = p1 - p0`, `b = p2 - p0`, as in
`TerrainAnalyzer.calculate_volume`. -/
def projArea2 (pts : List (ℚ × ℚ × ℚ)) (t : Nat × Nat × Nat) : ℚ :=
  let p0 := pts.getD t.1 (0, 0, 0)
  let p1 := pts.getD t.2.1 (0, 0, 0)
  let p2 := pts.getD t.2.2 (0, 0, 0)
  |(p1.1 - p0.1) * (p2.2.1 - p0.2.1) - (p1.2.1 - p0.2.1) * (p2.1 - p0.1)| / 2

/-- Mean elevation of triangle `t`: `np.mean(points[:, 2])`. -/
def meanZ3 (pts : List (ℚ × ℚ × ℚ)) (t : Nat × Nat × Nat) : ℚ :=
  ((pts.getD t.1 (0, 0, 0)).2.2 + (pts.getD t.2.1 (0, 0, 0)).2.2 +
    (pts.getD t.2.2 (0, 0, 0)).2.2) / 3

/-- `points_array[:, 2].min()`: the minimum stored elevation (0 on an empty
array, unreachable behind the `< 3` guard). -/
def minZ (pts : List (ℚ × ℚ × ℚ)) : ℚ :=
  match pts with
  | [] => 0
  | p :: rest => rest.foldl (fun acc q => min acc q.2.2) p.2.2

/-- `TerrainAnalyzer.calculate_volume` from `src/terrain_analysis.py`:
0 with fewer than 3 points; otherwise the base height defaults to the
minimum stored elevation, and the loop accumulates, for every Delaunay
simplex, projected 2D area × (mean vertex elevation − base).  The simplex
list produced by `scipy.spatial.Delaunay` is a parameter. -/
def calculate_volume (pts : List (ℚ × ℚ × ℚ)) (tris : List (Nat × Nat × Nat))
    (base_height : Option ℚ) : ℚ :=
  if pts.length < 3 then 0
  else
    let base := match base_height with
      | none => minZ pts
      | some b => b
    tris.foldl (fun volume t => volume + projArea2 pts t * (meanZ3 pts t - base)) 0

/-- The claim's formula, stated as a sum over the mesh triangles. -/
def prismVolumeSpec (pts : List (ℚ × ℚ × ℚ)) (tris : List (Nat × Nat × Nat))
    (base : ℚ) : ℚ :=
  (tris.map (fun t => projArea2 pts t * (meanZ3 pts t - base))).sum

theorem foldl_add_eq_sum (f : (Nat × Nat × Nat) → ℚ) (l : List (Nat × Nat × Nat)) :
    ∀ a : ℚ, l.foldl (fun acc t => acc + f t) a = a + (l.map f).sum := by
  induction l with
  | nil => intro a; simp
  | cons t l ih =>
    intro a
    simp only [List.foldl_cons, List.map_cons, List.sum_cons, ih (a + f t)]
    ring

/-- C7 (amended scope: `TerrainAnalyzer.calculate_volume`): with at least
3 points, the computed volume equals the sum over all mesh triangles of
projected 2D area × (mean vertex elevation − base), the base defaulting to
the minimum stored elevation. -/
theorem calculate_volume_eq_prism_sum (pts : List (ℚ × ℚ × ℚ))
    (tris : List (Nat × Nat × Nat)) (base_height : Option ℚ)
    (h3 : 3 ≤ pts.length) :
    calculate_volume pts tris base_height =
      prismVolumeSpec pts tris (base_height.getD (minZ pts)) := by
  unfold calculate_volume prismVolumeSpec
  rw [if_neg (by omega)]
  cases base_height with
  | none => simp [foldl_add_eq_sum]
  | some b => simp [foldl_add_eq_sum]

/-- Witness for C7's theorem: a four-point terrain with two triangles and
the default base. -/
theorem calculate_volume_eq_prism_sum_witness :
    calculate_volume [(0, 0, 1), (1, 0, 3), (0, 1, 5), (1, 1, 7)]
        [(0, 1, 2), (1, 3, 2)] none =
      prismVolumeSpec [(0, 0, 1), (1, 0, 3), (0, 1, 5), (1, 1, 7)]
        [(0, 1, 2), (1, 3, 2)]
        ((none : Option ℚ).getD (minZ [(0, 0, 1), (1, 0, 3), (0, 1, 5), (1, 1, 7)])) :=
  calculate_volume_eq_prism_sum [(0, 0, 1), (1, 0, 3), (0, 1, 5), (1, 1, 7)]
    [(0, 1, 2), (1, 3, 2)] none (by norm_num)

/-- Squared norm of the 3D cross product of the edge vectors of triangle
`t` — the quantity whose square root `TerrainModel.compute_surface_metrics`
halves to get the triangle's true 3D area. -/
def cross3NormSq (pts : List (ℚ × ℚ × ℚ)) (t : Nat × Nat × Nat) : ℚ :=
  let p0 := pts.getD t.1 (0, 0, 0)
  let p1 := pts.getD t.2.1 (0, 0, 0)
  let p2 := pts.getD t.2.2 (0, 0, 0)
  let ax := p1.1 - p0.1
  let ay := p1.2.1 - p0.2.1
  let az := p1.2.2 - p0.2.2
  let bx := p2.1 - p0.1
  let by2 := p2.2.1 - p0.2.1
  let bz := p2.2.2 - p0.2.2
  (ay * bz - az * by2) * (ay * bz - az * by2) +
    (az * bx - ax * bz) * (az * bx - ax * bz) +
    (ax * by2 - ay * bx) * (ax * by2 - ay * bx)

/-- The volume statistic of `TerrainModel.compute_surface_metrics`
(`np.sum(areas * np.mean(triangles[:, :, 2], axis=1))`): the sum of true
3D triangle area × mean vertex elevation, with *no* base subtraction.
Since each area is the (generally irrational) square root of
`cross3NormSq / 4`, the embedding takes the area list as an argument,
pinned down by `smAreasSpec`. -/
def smVolumeGiven (pts : List (ℚ × ℚ × ℚ)) (tris : List (Nat × Nat × Nat))
    (areas : List ℚ) : ℚ :=
  (List.zipWith (fun a t => a * meanZ3 pts t) areas tris).sum

/-- `areas` is the list of true 3D areas of `tris`: nonnegative, with
`area² = cross3NormSq / 4` (i.e. `area = ‖cross‖ / 2`), one per triangle. -/
def smAreasSpec (pts : List (ℚ × ℚ × ℚ)) (tris : List (Nat × Nat × Nat))
    (areas : List ℚ) : Prop :=
  List.Forall₂ (fun a t => 0 ≤ a ∧ a * a = cross3NormSq pts t / 4) areas tris

/-- Counterexample to C7 for `TerrainModel.compute_surface_metrics`: a flat
three-point terrain at elevation 3 whose single triangle has true area 6.
Its volume statistic is `6 · 3 = 18`, while the claim's formula (projected
area × mean height above the default base, the base being `min z = 3`)
gives 0 — `compute_surface_metrics` uses the 3D area and never subtracts a
base elevation. -/
theorem compute_surface_metrics_volume_counterexample :
    smAreasSpec [(0, 0, 3), (4, 0, 3), (0, 3, 3)] [(0, 1, 2)] [6] ∧
    smVolumeGiven [(0, 0, 3), (4, 0, 3), (0, 3, 3)] [(0, 1, 2)] [6] = 18 ∧
    calculate_volume [(0, 0, 3), (4, 0, 3), (0, 3, 3)] [(0, 1, 2)] none = 0 ∧
    (18 : ℚ) ≠ 0 := by
  refine ⟨?_, ?_, ?_, by norm_num⟩
  · refine List.Forall₂.cons ⟨by norm_num, ?_⟩ List.Forall₂.nil
    norm_num [cross3NormSq, List.getD]
  · norm_num [smVolumeGiven, meanZ3, List.getD]
  · norm_num [calculate_volume, minZ, projArea2, meanZ3, List.getD]

end Tmcad
